import Mathlib

/-!
Verification development for the proto-ddf port registry
(source: src/config/port_registry.py).

The registry hands out backend/frontend TCP port pairs to generated
applications, persists them, garbage-collects stale entries and manages
recorded process ids.  Shallow embedding conventions:

* Python ints are Lean `Int`.
* Python sets of ports are `List Int` used only through membership:
  `set.add` is cons, `set.discard` is `filter (· ≠ x)`.
* The registry dict `{"apps": {...}}` is an association list
  `List (String × RegEntry)`; Python dicts have unique keys, assignment
  replaces in place for an existing key and appends otherwise
  (`setPairs`), and `.get` is `lookupPairs`.
* Entry fields `backend`/`frontend`/`pid` are `Option Int`: a present
  integer value or an absent key.  (The source additionally coerces
  string-valued fields with `int(...)`; all states relevant to the
  claims hold integers or nothing, and the `isinstance(x, int)` /
  `x is None` branches are translated on that value space.)
* The operating system is a record `Env` of pure functions threaded
  explicitly: `avail p` is the boolean outcome of the
  `_is_port_available(p)` probe, `alive p` the outcome of
  `os.kill(p, 0)`, `dirs` the listing of the generated/ directory
  (`none` when the directory is missing), and `termRaises p` abstracts
  whether the termination block of `stop_app` raises.
* `random.randint(lo, hi)` is modelled as `lo + v % (hi - lo + 1)`
  where `v` is drawn from an arbitrary oracle stream `o : Nat → Int`;
  each potential `_pick_available_port` call site gets its own stream.
* Effects (signals sent by garbage collection) are returned as data.
-/

namespace PortRegistry

/-- Python exception taxonomy relevant to the port probe: `OSError`
(with its subclasses), or any other exception class. -/
inductive PyExc where
  | osError (errno : Int)
  | nonOSError
deriving Repr, DecidableEq

def PyExc.isOSError : PyExc → Bool
  | .osError _ => true
  | .nonOSError => false

/-- Outcome model for the body of the `with socket.socket(...)` block in
`_is_port_available`: creating the socket, setting `SO_REUSEADDR` and
calling `sock.bind((host, port))` either succeeds or raises some Python
exception. -/
structure BindEnv where
  bind : String → Int → Except PyExc Unit

/-- Shallow embedding of `_is_port_available` (port_registry.py lines
130-141): try the bind and return `True` on success; `except OSError:
return False`; an exception that is not an `OSError` is not caught and
propagates (modelled as `Except.error`). -/
def _is_port_available (env : BindEnv) (port : Int) (host : String := "0.0.0.0") :
    Except PyExc Bool :=
  match env.bind host port with
  | Except.ok _ => Except.ok true
  | Except.error e => if e.isOSError then Except.ok false else Except.error e

/-- One entry of the `apps` map: `{"backend": .., "frontend": .., "pid": ..}`
with every key optional. -/
structure RegEntry where
  backend : Option Int
  frontend : Option Int
  pid : Option Int
deriving Repr, DecidableEq

/-- The in-memory registry: configured allocation range plus the `apps`
map of `self._data`. -/
structure Registry where
  min_port : Int
  max_port : Int
  apps : List (String × RegEntry)
deriving Repr, DecidableEq

/-- Return value of `ensure_ports` / `get_ports` (dataclass `AppPorts`). -/
structure AppPorts where
  backend : Int
  frontend : Int
deriving Repr, DecidableEq

/-- The operating-system environment seen by the registry. -/
structure Env where
  generatorBackendPort : Int
  generatorFrontendPort : Int
  avail : Int → Bool
  alive : Int → Bool
  dirs : Option (List String)
  termRaises : Int → Bool

/-- Python `set.add` (only membership is ever observed). -/
def setAdd (s : List Int) (x : Int) : List Int := x :: s

/-- Python `set.discard`. -/
def setDiscard (s : List Int) (x : Int) : List Int :=
  s.filter (fun y => decide (y ≠ x))

/-- Python `dict.get` on the `apps` map. -/
def lookupPairs : List (String × RegEntry) → String → Option RegEntry
  | [], _ => none
  | p :: rest, name => if p.1 = name then some p.2 else lookupPairs rest name

/-- Python dict assignment `apps[name] = e`: replace in place when the
key exists, append otherwise. -/
def setPairs : List (String × RegEntry) → String → RegEntry → List (String × RegEntry)
  | [], name, e => [(name, e)]
  | p :: rest, name, e =>
    if p.1 = name then (name, e) :: rest else p :: setPairs rest name e

/-- Python truthiness of an entry dict (`if existing:`): a dict is truthy
iff it is non-empty, i.e. some key is present. -/
def entryTruthy (e : RegEntry) : Bool :=
  e.backend.isSome || e.frontend.isSome || e.pid.isSome

/-- The coercion `x if isinstance(x, int) else (int(x) if x is not None
else 0)` from `ensure_ports`, on the int-or-absent value space. -/
def pyIntCoerce : Option Int → Int
  | some n => n
  | none => 0

/-- One step of the loop body of `_reserved_ports`: add the entry's
backend and then its frontend to the accumulated set when present. -/
def entryPortsAcc (acc : List Int) (e : RegEntry) : List Int :=
  let acc1 := match e.backend with
    | some b => setAdd acc b
    | none => acc
  match e.frontend with
  | some f => setAdd acc1 f
  | none => acc1

/-- `PortRegistry._reserved_ports` (lines 320-347): the generator ports
plus every recorded backend/frontend port of every app. -/
def _reserved_ports (env : Env) (R : Registry) : List Int :=
  R.apps.foldl (fun acc p => entryPortsAcc acc p.2)
    [env.generatorBackendPort, env.generatorFrontendPort]

/-- One draw of `random.randint(self.min_port, self.max_port)`, driven by
an oracle value. -/
def randCandidate (R : Registry) (v : Int) : Int :=
  R.min_port + v % (R.max_port - R.min_port + 1)

/-- The shared filter of both allocation loops in `_pick_available_port`:
return the first candidate that is not forbidden and reported available
by the probe. -/
def firstHit (env : Env) (forbidden : List Int) : List Int → Option Int
  | [] => none
  | c :: rest =>
    if c ∈ forbidden then firstHit env forbidden rest
    else if env.avail c then some c
    else firstHit env forbidden rest

/-- The random phase of `_pick_available_port`: up to 200 attempts, one
random draw per attempt. -/
def randPhase (env : Env) (R : Registry) (forbidden : List Int) (o : Nat → Int) :
    Option Int :=
  firstHit env forbidden ((List.range 200).map (fun i => randCandidate R (o i)))

/-- `range(self.min_port, self.max_port + 1)` as a list. -/
def rangeSweepList (R : Registry) : List Int :=
  (List.range (R.max_port + 1 - R.min_port).toNat).map (fun i : Nat => R.min_port + (i : Int))

/-- The fallback sequential sweep of `_pick_available_port`. -/
def sweepPhase (env : Env) (R : Registry) (forbidden : List Int) : Option Int :=
  firstHit env forbidden (rangeSweepList R)

/-- The last-resort value of `_pick_available_port` (line 379):
`max(self.min_port, min(self.max_port, GENERATOR_FRONTEND_PORT + 1))`,
returned unchecked; it may collide with forbidden or occupied ports. -/
def lastResortPort (env : Env) (R : Registry) : Int :=
  max R.min_port (min R.max_port (env.generatorFrontendPort + 1))

/-- `PortRegistry._pick_available_port` (lines 349-379). -/
def _pick_available_port (env : Env) (R : Registry) (forbidden : List Int)
    (o : Nat → Int) : Int :=
  match randPhase env R forbidden o with
  | some c => c
  | none =>
    match sweepPhase env R forbidden with
    | some c => c
    | none => lastResortPort env R

/-- Whether a `_pick_available_port` call returns through the random or
sweep phase, i.e. does not degrade to the unchecked last-resort value. -/
def pickOk (env : Env) (R : Registry) (forbidden : List Int) (o : Nat → Int) : Bool :=
  (randPhase env R forbidden o).isSome || (sweepPhase env R forbidden).isSome

/-- The local `_valid` predicate of `ensure_ports` (lines 476-482);
`isinstance(None, int)` is false, so an absent candidate is invalid. -/
def _valid (env : Env) (R : Registry) (forbidden : List Int) : Option Int → Bool
  | none => false
  | some p =>
    decide (R.min_port ≤ p ∧ p ≤ R.max_port ∧
      p ≠ env.generatorBackendPort ∧ p ≠ env.generatorFrontendPort ∧ p ∉ forbidden)

/-- The forbidden set built by `ensure_ports` (lines 454-473): all
reserved ports, with this app's own prior backend/frontend discarded
(`int(None)` raises and is swallowed, so absent fields discard
nothing); the discards only run when `existing` is truthy. -/
def allocForbidden (env : Env) (R : Registry) (name : String) : List Int :=
  let forbidden := _reserved_ports env R
  match lookupPairs R.apps name with
  | some e =>
    if entryTruthy e then
      let s1 := match e.backend with
        | some b => setDiscard forbidden b
        | none => forbidden
      match e.frontend with
      | some f => setDiscard s1 f
      | none => s1
    else forbidden
  | none => forbidden

/-- `backend_concrete` of `ensure_ports` (lines 485-488). -/
def allocBackend (env : Env) (o1 : Nat → Int) (R : Registry) (name : String)
    (rb : Option Int) : Int :=
  match rb with
  | some p =>
    if _valid env R (allocForbidden env R name) (some p) then p
    else _pick_available_port env R (allocForbidden env R name) o1
  | none => _pick_available_port env R (allocForbidden env R name) o1

/-- `frontend_concrete` of `ensure_ports` (lines 491-495); the `_valid`
closure sees the forbidden set after `forbidden.add(backend_concrete)`. -/
def allocFrontend (env : Env) (o1 o2 : Nat → Int) (R : Registry) (name : String)
    (rb rf : Option Int) : Int :=
  match rf with
  | some p =>
    if _valid env R (setAdd (allocForbidden env R name) (allocBackend env o1 R name rb)) (some p)
        && decide (p ≠ allocBackend env o1 R name rb) then p
    else _pick_available_port env R
      (setAdd (allocForbidden env R name) (allocBackend env o1 R name rb)) o2
  | none => _pick_available_port env R
      (setAdd (allocForbidden env R name) (allocBackend env o1 R name rb)) o2

/-- The validity test of the reuse path (line 441): `if b and f and
b != f and b not in {GB, GF} and f not in {GB, GF}`. -/
def reuseCheck (env : Env) (e : RegEntry) : Bool :=
  let b := pyIntCoerce e.backend
  let f := pyIntCoerce e.frontend
  decide (b ≠ 0 ∧ f ≠ 0 ∧ b ≠ f ∧
    b ≠ env.generatorBackendPort ∧ b ≠ env.generatorFrontendPort ∧
    f ≠ env.generatorBackendPort ∧ f ≠ env.generatorFrontendPort)

/-- Result of `ensure_ports`: the returned pair and the updated registry. -/
structure EnsureResult where
  ports : AppPorts
  reg : Registry
deriving Repr, DecidableEq

/-- The fresh-allocation tail of `ensure_ports` (lines 450-502). -/
def allocResult (env : Env) (o1 o2 : Nat → Int) (R : Registry) (name : String)
    (rb rf : Option Int) : EnsureResult :=
  let b := allocBackend env o1 R name rb
  let f := allocFrontend env o1 o2 R name rb rf
  ⟨⟨b, f⟩, { R with apps := setPairs R.apps name ⟨some b, some f, none⟩ }⟩

/-- `PortRegistry.ensure_ports` (lines 407-502).  On the reuse path the
inner `if not avail(b) and not avail(f): pass` statement has no effect
and is omitted; the entry is rewritten as `{"backend": b, "frontend": f}`
(dropping any pid) and the coerced pair is returned. -/
def ensure_ports (env : Env) (o1 o2 : Nat → Int) (R : Registry) (name : String)
    (backend frontend : Option Int) : EnsureResult :=
  match lookupPairs R.apps name with
  | some e =>
    if entryTruthy e && reuseCheck env e then
      let b := pyIntCoerce e.backend
      let f := pyIntCoerce e.frontend
      ⟨⟨b, f⟩, { R with apps := setPairs R.apps name ⟨some b, some f, none⟩ }⟩
    else allocResult env o1 o2 R name backend frontend
  | none => allocResult env o1 o2 R name backend frontend

/-- `PortRegistry.reserve_pair` (lines 504-516). -/
def reserve_pair (env : Env) (o1 o2 : Nat → Int) (R : Registry) (name : String) :
    (Int × Int) × Registry :=
  let r := ensure_ports env o1 o2 R name none none
  ((r.ports.backend, r.ports.frontend), r.reg)

/-- `PortRegistry.get_ports` (lines 382-405): both fields integers gives
the pair; a missing entry or a missing field gives `None`. -/
def get_ports (R : Registry) (name : String) : Option AppPorts :=
  match lookupPairs R.apps name with
  | none => none
  | some e =>
    match e.backend, e.frontend with
    | some b, some f => some ⟨b, f⟩
    | _, _ => none

/-- `PortRegistry.get_pid` (lines 529-542). -/
def get_pid (R : Registry) (name : String) : Option Int :=
  match lookupPairs R.apps name with
  | some e => e.pid
  | none => none

/-- `PortRegistry.set_pid` (lines 518-527): a no-op when the app has no
entry. -/
def set_pid (R : Registry) (name : String) (pid : Int) : Registry :=
  match lookupPairs R.apps name with
  | some e => { R with apps := setPairs R.apps name { e with pid := some pid } }
  | none => R

/-- `_is_process_running` (lines 144-156): non-positive pids are never
running; otherwise the `os.kill(pid, 0)` outcome decides. -/
def _is_process_running (env : Env) (pid : Int) : Bool :=
  if pid ≤ 0 then false else env.alive pid

/-- Result of `stop_app`: the returned boolean and the updated registry. -/
structure StopResult where
  stopped : Bool
  reg : Registry
deriving Repr, DecidableEq

/-- `PortRegistry.stop_app` (lines 544-594).  `if pid and
_is_process_running(pid)` guards the whole termination attempt; the
termination block (psutil or signal based) is abstracted by
`env.termRaises`: when it raises, the outer handler returns `False`,
otherwise the recorded pid is popped and `True` is returned. -/
def stop_app (env : Env) (R : Registry) (name : String) : StopResult :=
  match get_pid R name with
  | some pid =>
    if decide (pid ≠ 0) && _is_process_running env pid then
      if env.termRaises pid then ⟨false, R⟩
      else
        match lookupPairs R.apps name with
        | some e => ⟨true, { R with apps := setPairs R.apps name { e with pid := none } }⟩
        | none => ⟨true, R⟩
    else ⟨false, R⟩
  | none => ⟨false, R⟩

/-- Result of `_garbage_collect` / `_load`: the surviving registry and
the list of pids to which a SIGTERM was attempted. -/
structure GCResult where
  reg : Registry
  killed : List Int
deriving Repr, DecidableEq

/-- The orphan-process check inside `_garbage_collect` (lines 307-314):
an entry about to be removed gets a SIGTERM attempt when it records an
integer pid of a running process. -/
def gcKillCheck (env : Env) (R : Registry) (name : String) : Option Int :=
  match lookupPairs R.apps name with
  | some e =>
    match e.pid with
    | some p => if _is_process_running env p then some p else none
    | none => none
  | none => none

/-- `PortRegistry._garbage_collect` (lines 290-317): skipped entirely
when the generated/ directory is missing; otherwise every entry whose
name is not an existing app directory is removed, after a best-effort
SIGTERM to its live recorded process. -/
def _garbage_collect (env : Env) (R : Registry) : GCResult :=
  match env.dirs with
  | none => ⟨R, []⟩
  | some ds =>
    let toRemove := (R.apps.map Prod.fst).filter (fun n => decide (n ∉ ds))
    let killed := toRemove.filterMap (fun n => gcKillCheck env R n)
    ⟨{ R with apps := R.apps.filter (fun p => decide (p.1 ∈ ds)) }, killed⟩

/-- The durable store as seen by `_load` (lines 255-273): missing file,
unreadable file (`read_text` raises), unparsable JSON (`json.loads`
raises), parsed content without a proper top-level `apps` dict, or a
well-formed `apps` map. -/
inductive RawStore where
  | missing
  | unreadable
  | badJson
  | noAppsMap
  | appsMap (m : List (String × RegEntry))
deriving Repr, DecidableEq

/-- `PortRegistry._load` as run from `__init__` (lines 211-222, 255-273):
`self._data` starts as `{"apps": {}}`; a missing file leaves it, read or
parse failures reset it, a malformed shape is replaced by an empty apps
map before garbage collection, and a well-formed map is garbage
collected. -/
def _load (env : Env) (store : RawStore) (minP maxP : Int) : GCResult :=
  match store with
  | .missing => ⟨⟨minP, maxP, []⟩, []⟩
  | .unreadable => ⟨⟨minP, maxP, []⟩, []⟩
  | .badJson => ⟨⟨minP, maxP, []⟩, []⟩
  | .noAppsMap => _garbage_collect env ⟨minP, maxP, []⟩
  | .appsMap m => _garbage_collect env ⟨minP, maxP, m⟩

/-- A registry with no recorded apps, as produced by constructing the
registry over an absent durable store. -/
def freshRegistry (lo hi : Int) : Registry := ⟨lo, hi, []⟩

/-- One `ensure_ports` call of a scenario: the app name, the requested
ports, and the two random-oracle streams for its potential picks. -/
structure Call where
  name : String
  rb : Option Int
  rf : Option Int
  o1 : Nat → Int
  o2 : Nat → Int

/-- Run a sequence of `ensure_ports` calls, collecting the returned
pairs. -/
def runCalls (env : Env) : Registry → List Call → Registry × List AppPorts
  | R, [] => (R, [])
  | R, c :: rest =>
    let r := ensure_ports env c.o1 c.o2 R c.name c.rb c.rf
    let t := runCalls env r.reg rest
    (t.1, r.ports :: t.2)

/-- Every pick a call sequence could perform returns through the random
or sweep phase (the last-resort fallback is never reached). -/
def callsOk (env : Env) : Registry → List Call → Bool
  | _, [] => true
  | R, c :: rest =>
    pickOk env R (allocForbidden env R c.name) c.o1 &&
    pickOk env R (setAdd (allocForbidden env R c.name) (allocBackend env c.o1 R c.name c.rb)) c.o2 &&
    callsOk env (ensure_ports env c.o1 c.o2 R c.name c.rb c.rf).reg rest

/-- All backend and frontend ports of a list of returned pairs. -/
def portsOfPairs : List AppPorts → List Int
  | [] => []
  | p :: rest => p.backend :: p.frontend :: portsOfPairs rest

/-- The app's prior entry, if any, records neither generator port.
This holds in every state the registry itself produces when its picks
succeed, but can fail for states read back from a hand-edited or
degraded store. -/
def entryGenFree (env : Env) (R : Registry) (name : String) : Prop :=
  ∀ e, lookupPairs R.apps name = some e →
    e.backend ≠ some env.generatorBackendPort ∧
    e.backend ≠ some env.generatorFrontendPort ∧
    e.frontend ≠ some env.generatorBackendPort ∧
    e.frontend ≠ some env.generatorFrontendPort

/-- Whether `ensure_ports` takes the reuse-existing-entry path. -/
def reuseTaken (env : Env) (R : Registry) (name : String) : Bool :=
  match lookupPairs R.apps name with
  | some e => entryTruthy e && reuseCheck env e
  | none => false

/-- The PortPair separation invariant of the spec data model: backend and
frontend differ and neither equals a generator-reserved port. -/
def pairSeparated (env : Env) (p : AppPorts) : Prop :=
  p.backend ≠ p.frontend ∧
  p.backend ≠ env.generatorBackendPort ∧ p.backend ≠ env.generatorFrontendPort ∧
  p.frontend ≠ env.generatorBackendPort ∧ p.frontend ≠ env.generatorFrontendPort

/-- Both ports of a pair lie within the configured allocation range. -/
def pairInRange (R : Registry) (p : AppPorts) : Prop :=
  R.min_port ≤ p.backend ∧ p.backend ≤ R.max_port ∧
  R.min_port ≤ p.frontend ∧ p.frontend ≤ R.max_port

/-! ### Concrete environments, registries and oracles for the instances below -/

/-- Constant-zero random oracle. -/
def oZero : Nat → Int := fun _ => 0

/-- Every port probe succeeds; generator ports 3001 and 3002. -/
def envAllFree : Env := ⟨3001, 3002, fun _ => true, fun _ => false, none, fun _ => false⟩

/-- No port probe succeeds; generator ports 3001 and 3004. -/
def envNoneFree : Env := ⟨3001, 3004, fun _ => false, fun _ => false, none, fun _ => false⟩

/-- Generator ports at their fallback defaults 4179 and 3416; every probe
succeeds. -/
def envDefaults : Env := ⟨4179, 3416, fun _ => true, fun _ => false, none, fun _ => false⟩

/-- Generator frontend 3005, backend 3006 (adjacent); exactly the ports 3002
and 3006 probe as available. -/
def envAdjacent : Env :=
  ⟨3006, 3005, fun p => decide (p = 3002 ∨ p = 3006), fun _ => false, none, fun _ => false⟩

/-- Generator frontend port 3000, so the last-resort fallback value is 3001;
no probe succeeds. -/
def envGF3000 : Env := ⟨3009, 3000, fun _ => false, fun _ => false, none, fun _ => false⟩

/-- A registry whose stored pair for app1 lies outside the 3000-5000 range. -/
def regOutOfRange : Registry :=
  ⟨3000, 5000, [("app1", RegEntry.mk (some 9999) (some 9998) none)]⟩

/-- The collision scenario registry on a small range: app1 holds 3001/3002. -/
def regApp1 : Registry := ⟨3000, 3010, [("app1", RegEntry.mk (some 3001) (some 3002) none)]⟩

/-- The collision scenario registry of the spec: app1 holds 3001/3002 in the
default 3000-5000 range. -/
def regClaim6 : Registry := ⟨3000, 5000, [("app1", RegEntry.mk (some 3001) (some 3002) none)]⟩

/-- A bind environment in which every bind fails with `EADDRINUSE`. -/
def bindBusy : BindEnv := ⟨fun _ _ => Except.error (PyExc.osError 98)⟩

/-- Environment for the garbage-collection scenario: only app1's directory
exists, and pid 555 is alive. -/
def envGC : Env :=
  ⟨4179, 3416, fun _ => true, fun p => decide (p = 555), some ["app1"], fun _ => false⟩

/-- Stored apps map for the garbage-collection scenario. -/
def regGCm : List (String × RegEntry) :=
  [("app1", RegEntry.mk (some 3100) (some 3101) none),
   ("app2", RegEntry.mk (some 3102) (some 3103) (some 555))]

/-- A two-call scenario with distinct names used as a uniqueness witness. -/
def callsW : List Call :=
  [⟨"a", none, none, fun _ => 3, fun _ => 4⟩, ⟨"b", some 3008, none, fun _ => 5, fun _ => 6⟩]

/-! ### Lemmas about the association-list and set primitives -/

theorem lookupPairs_setPairs_self (l : List (String × RegEntry)) (n : String)
    (e : RegEntry) : lookupPairs (setPairs l n e) n = some e := by
  induction l with
  | nil => simp [setPairs, lookupPairs]
  | cons p t ih =>
    by_cases hp : p.1 = n
    · simp [setPairs, hp, lookupPairs]
    · simp [setPairs, hp, lookupPairs, ih]

theorem lookupPairs_setPairs_other (l : List (String × RegEntry)) (n m : String)
    (e : RegEntry) (hnm : m ≠ n) :
    lookupPairs (setPairs l n e) m = lookupPairs l m := by
  induction l with
  | nil =>
    simp only [setPairs, lookupPairs]
    rw [if_neg (Ne.symm hnm)]
  | cons p t ih =>
    by_cases hp : p.1 = n
    · simp only [setPairs, if_pos hp, lookupPairs]
      rw [if_neg (Ne.symm hnm), if_neg (hp ▸ Ne.symm hnm)]
    · simp only [setPairs, if_neg hp, lookupPairs]
      rw [ih]

theorem setPairs_of_none (l : List (String × RegEntry)) (n : String) (e : RegEntry)
    (h : lookupPairs l n = none) : setPairs l n e = l ++ [(n, e)] := by
  induction l with
  | nil => simp [setPairs]
  | cons p t ih =>
    by_cases hp : p.1 = n
    · simp [lookupPairs, hp] at h
    · simp [lookupPairs, hp] at h
      simp [setPairs, hp, ih h]

theorem lookupPairs_append_none (l1 l2 : List (String × RegEntry)) (n : String)
    (h : lookupPairs l1 n = none) :
    lookupPairs (l1 ++ l2) n = lookupPairs l2 n := by
  induction l1 with
  | nil => simp
  | cons p t ih =>
    by_cases hp : p.1 = n
    · simp [lookupPairs, hp] at h
    · simp [lookupPairs, hp] at h ⊢
      exact ih h

theorem lookupPairs_singleton_ne (n m : String) (e : RegEntry) (h : m ≠ n) :
    lookupPairs [(n, e)] m = none := by
  simp [lookupPairs, Ne.symm h]

theorem mem_setDiscard (s : List Int) (x y : Int) (hx : x ∈ s) (hne : x ≠ y) :
    x ∈ setDiscard s y := by
  simp [setDiscard, List.mem_filter, hx, hne]

/-! ### Lemmas about `_reserved_ports` -/

theorem mem_entryPortsAcc_of_mem (acc : List Int) (e : RegEntry) (x : Int)
    (h : x ∈ acc) : x ∈ entryPortsAcc acc e := by
  obtain ⟨ob, of, op⟩ := e
  cases ob <;> cases of <;> simp [entryPortsAcc, setAdd] <;> tauto

theorem mem_foldl_entryPorts (l : List (String × RegEntry)) (acc : List Int)
    (x : Int) (h : x ∈ acc) :
    x ∈ l.foldl (fun a p => entryPortsAcc a p.2) acc := by
  induction l generalizing acc with
  | nil => simpa using h
  | cons p t ih => exact ih _ (mem_entryPortsAcc_of_mem _ _ _ h)

theorem generator_mem_reserved (env : Env) (R : Registry) :
    env.generatorBackendPort ∈ _reserved_ports env R ∧
    env.generatorFrontendPort ∈ _reserved_ports env R := by
  constructor <;> exact mem_foldl_entryPorts _ _ _ (by simp)

theorem reserved_append_entry (env : Env) (lo hi : Int)
    (l : List (String × RegEntry)) (n : String) (b f : Int) (pd : Option Int) :
    _reserved_ports env ⟨lo, hi, l ++ [(n, ⟨some b, some f, pd⟩)]⟩ =
      f :: b :: _reserved_ports env ⟨lo, hi, l⟩ := by
  unfold _reserved_ports
  rw [List.foldl_append]
  rfl

theorem reserved_fresh (env : Env) (lo hi : Int) :
    _reserved_ports env (freshRegistry lo hi) =
      [env.generatorBackendPort, env.generatorFrontendPort] := rfl

/-! ### Lemmas about `_pick_available_port` -/

theorem firstHit_spec (env : Env) (forbidden : List Int) (cands : List Int)
    (c : Int) (h : firstHit env forbidden cands = some c) :
    c ∉ forbidden ∧ env.avail c = true ∧ c ∈ cands := by
  induction cands with
  | nil => simp [firstHit] at h
  | cons a t ih =>
    by_cases hmem : a ∈ forbidden
    · rw [firstHit, if_pos hmem] at h
      obtain ⟨h1, h2, h3⟩ := ih h
      exact ⟨h1, h2, List.mem_cons_of_mem _ h3⟩
    · by_cases hav : env.avail a = true
      · rw [firstHit, if_neg hmem, if_pos hav] at h
        obtain rfl : a = c := by injection h
        exact ⟨hmem, hav, List.mem_cons_self _ _⟩
      · rw [firstHit, if_neg hmem, if_neg hav] at h
        obtain ⟨h1, h2, h3⟩ := ih h
        exact ⟨h1, h2, List.mem_cons_of_mem _ h3⟩

theorem randCandidate_range (R : Registry) (v : Int)
    (hLe : R.min_port ≤ R.max_port) :
    R.min_port ≤ randCandidate R v ∧ randCandidate R v ≤ R.max_port := by
  unfold randCandidate
  have h1 : (0 : Int) < R.max_port - R.min_port + 1 := by omega
  have h2 := Int.emod_nonneg v (by omega : R.max_port - R.min_port + 1 ≠ 0)
  have h3 := Int.emod_lt_of_pos v h1
  omega

theorem rangeSweepList_range (R : Registry) (c : Int) (hc : c ∈ rangeSweepList R) :
    R.min_port ≤ c ∧ c ≤ R.max_port := by
  unfold rangeSweepList at hc
  rcases List.mem_map.mp hc with ⟨i, hi, rfl⟩
  have := List.mem_range.mp hi
  omega

theorem pick_spec (env : Env) (R : Registry) (forbidden : List Int) (o : Nat → Int)
    (h : pickOk env R forbidden o = true) :
    _pick_available_port env R forbidden o ∉ forbidden ∧
    env.avail (_pick_available_port env R forbidden o) = true := by
  unfold pickOk at h
  unfold _pick_available_port
  cases hr : randPhase env R forbidden o with
  | some c =>
    obtain ⟨h1, h2, _⟩ := firstHit_spec env forbidden _ c hr
    exact ⟨h1, h2⟩
  | none =>
    cases hs : sweepPhase env R forbidden with
    | some c =>
      obtain ⟨h1, h2, _⟩ := firstHit_spec env forbidden _ c hs
      exact ⟨h1, h2⟩
    | none => simp [hr, hs] at h

theorem pick_range (env : Env) (R : Registry) (forbidden : List Int) (o : Nat → Int)
    (hLe : R.min_port ≤ R.max_port) (h : pickOk env R forbidden o = true) :
    R.min_port ≤ _pick_available_port env R forbidden o ∧
    _pick_available_port env R forbidden o ≤ R.max_port := by
  unfold pickOk at h
  unfold _pick_available_port
  cases hr : randPhase env R forbidden o with
  | some c =>
    obtain ⟨_, _, h3⟩ := firstHit_spec env forbidden _ c hr
    rcases List.mem_map.mp h3 with ⟨i, _, rfl⟩
    exact randCandidate_range R _ hLe
  | none =>
    cases hs : sweepPhase env R forbidden with
    | some c =>
      obtain ⟨_, _, h3⟩ := firstHit_spec env forbidden _ c hs
      exact rangeSweepList_range R c h3
    | none => simp [hr, hs] at h

/-! ### Lemmas about the allocation path of `ensure_ports` -/

theorem valid_spec (env : Env) (R : Registry) (forbidden : List Int) (p : Int)
    (h : _valid env R forbidden (some p) = true) :
    R.min_port ≤ p ∧ p ≤ R.max_port ∧
    p ≠ env.generatorBackendPort ∧ p ≠ env.generatorFrontendPort ∧ p ∉ forbidden := by
  simpa [_valid] using h

theorem mem_allocForbidden_of_reserved (env : Env) (R : Registry) (name : String)
    (x : Int) (hx : x ∈ _reserved_ports env R)
    (hb : ∀ e, lookupPairs R.apps name = some e → e.backend ≠ some x)
    (hf : ∀ e, lookupPairs R.apps name = some e → e.frontend ≠ some x) :
    x ∈ allocForbidden env R name := by
  cases hl : lookupPairs R.apps name with
  | none => simpa [allocForbidden, hl] using hx
  | some e =>
    obtain ⟨ob, of, op⟩ := e
    have hb2 := hb _ hl
    have hf2 := hf _ hl
    by_cases ht : entryTruthy ⟨ob, of, op⟩ = true
    · cases ob with
      | none =>
        cases of with
        | none => simpa [allocForbidden, hl, ht] using hx
        | some f =>
          simp only [allocForbidden, hl, ht, if_true]
          exact mem_setDiscard _ _ _ hx (fun h => hf2 (congrArg some h.symm))
      | some b =>
        cases of with
        | none =>
          simp only [allocForbidden, hl, ht, if_true]
          exact mem_setDiscard _ _ _ hx (fun h => hb2 (congrArg some h.symm))
        | some f =>
          simp only [allocForbidden, hl, ht, if_true]
          exact mem_setDiscard _ _ _
            (mem_setDiscard _ _ _ hx (fun h => hb2 (congrArg some h.symm)))
            (fun h => hf2 (congrArg some h.symm))
    · simp only [allocForbidden, hl, ht, if_false]
      simpa using hx

theorem gen_mem_allocForbidden (env : Env) (R : Registry) (name : String)
    (hGen : entryGenFree env R name) :
    env.generatorBackendPort ∈ allocForbidden env R name ∧
    env.generatorFrontendPort ∈ allocForbidden env R name := by
  constructor
  · exact mem_allocForbidden_of_reserved env R name _ (generator_mem_reserved env R).1
      (fun e he => (hGen e he).1) (fun e he => (hGen e he).2.2.1)
  · exact mem_allocForbidden_of_reserved env R name _ (generator_mem_reserved env R).2
      (fun e he => (hGen e he).2.1) (fun e he => (hGen e he).2.2.2)

theorem allocForbidden_of_none (env : Env) (R : Registry) (name : String)
    (h : lookupPairs R.apps name = none) :
    allocForbidden env R name = _reserved_ports env R := by
  simp [allocForbidden, h]

theorem allocBackend_not_forbidden (env : Env) (o1 : Nat → Int) (R : Registry)
    (name : String) (rb : Option Int)
    (hB : pickOk env R (allocForbidden env R name) o1 = true) :
    allocBackend env o1 R name rb ∉ allocForbidden env R name := by
  cases rb with
  | none => exact (pick_spec env R _ o1 hB).1
  | some p =>
    simp only [allocBackend]
    by_cases hv : _valid env R (allocForbidden env R name) (some p) = true
    · rw [if_pos hv]
      exact (valid_spec env R _ p hv).2.2.2.2
    · rw [if_neg hv]
      exact (pick_spec env R _ o1 hB).1

theorem allocBackend_not_generator (env : Env) (o1 : Nat → Int) (R : Registry)
    (name : String) (rb : Option Int) (hGen : entryGenFree env R name)
    (hB : pickOk env R (allocForbidden env R name) o1 = true) :
    allocBackend env o1 R name rb ≠ env.generatorBackendPort ∧
    allocBackend env o1 R name rb ≠ env.generatorFrontendPort := by
  have hnf := allocBackend_not_forbidden env o1 R name rb hB
  have hg := gen_mem_allocForbidden env R name hGen
  exact ⟨fun h => hnf (h ▸ hg.1), fun h => hnf (h ▸ hg.2)⟩

theorem allocBackend_range (env : Env) (o1 : Nat → Int) (R : Registry)
    (name : String) (rb : Option Int) (hLe : R.min_port ≤ R.max_port)
    (hB : pickOk env R (allocForbidden env R name) o1 = true) :
    R.min_port ≤ allocBackend env o1 R name rb ∧
    allocBackend env o1 R name rb ≤ R.max_port := by
  cases rb with
  | none => exact pick_range env R _ o1 hLe hB
  | some p =>
    simp only [allocBackend]
    by_cases hv : _valid env R (allocForbidden env R name) (some p) = true
    · rw [if_pos hv]
      exact ⟨(valid_spec env R _ p hv).1, (valid_spec env R _ p hv).2.1⟩
    · rw [if_neg hv]
      exact pick_range env R _ o1 hLe hB

theorem allocFrontend_not_forbidden (env : Env) (o1 o2 : Nat → Int) (R : Registry)
    (name : String) (rb rf : Option Int)
    (hF : pickOk env R
      (setAdd (allocForbidden env R name) (allocBackend env o1 R name rb)) o2 = true) :
    allocFrontend env o1 o2 R name rb rf ∉
      setAdd (allocForbidden env R name) (allocBackend env o1 R name rb) := by
  cases rf with
  | none => exact (pick_spec env R _ o2 hF).1
  | some p =>
    simp only [allocFrontend]
    by_cases hv : (_valid env R
        (setAdd (allocForbidden env R name) (allocBackend env o1 R name rb)) (some p)
        && decide (p ≠ allocBackend env o1 R name rb)) = true
    · rw [if_pos hv]
      simp only [Bool.and_eq_true] at hv
      exact (valid_spec env R _ p hv.1).2.2.2.2
    · rw [if_neg hv]
      exact (pick_spec env R _ o2 hF).1

theorem allocFrontend_ne_backend (env : Env) (o1 o2 : Nat → Int) (R : Registry)
    (name : String) (rb rf : Option Int)
    (hF : pickOk env R
      (setAdd (allocForbidden env R name) (allocBackend env o1 R name rb)) o2 = true) :
    allocFrontend env o1 o2 R name rb rf ≠ allocBackend env o1 R name rb := by
  intro h
  exact allocFrontend_not_forbidden env o1 o2 R name rb rf hF
    (by rw [h]; exact List.mem_cons_self _ _)

theorem allocFrontend_range (env : Env) (o1 o2 : Nat → Int) (R : Registry)
    (name : String) (rb rf : Option Int) (hLe : R.min_port ≤ R.max_port)
    (hF : pickOk env R
      (setAdd (allocForbidden env R name) (allocBackend env o1 R name rb)) o2 = true) :
    R.min_port ≤ allocFrontend env o1 o2 R name rb rf ∧
    allocFrontend env o1 o2 R name rb rf ≤ R.max_port := by
  cases rf with
  | none => exact pick_range env R _ o2 hLe hF
  | some p =>
    simp only [allocFrontend]
    by_cases hv : (_valid env R
        (setAdd (allocForbidden env R name) (allocBackend env o1 R name rb)) (some p)
        && decide (p ≠ allocBackend env o1 R name rb)) = true
    · rw [if_pos hv]
      simp only [Bool.and_eq_true] at hv
      have h2 := valid_spec env R _ p hv.1
      exact ⟨h2.1, h2.2.1⟩
    · rw [if_neg hv]
      exact pick_range env R _ o2 hLe hF

/-! ### Branch lemmas for `ensure_ports` -/

theorem ensure_alloc_of_lookup_none (env : Env) (o1 o2 : Nat → Int) (R : Registry)
    (name : String) (rb rf : Option Int) (h : lookupPairs R.apps name = none) :
    ensure_ports env o1 o2 R name rb rf = allocResult env o1 o2 R name rb rf := by
  simp [ensure_ports, h]

theorem ensure_alloc_of_check_false (env : Env) (o1 o2 : Nat → Int) (R : Registry)
    (name : String) (rb rf : Option Int) (e : RegEntry)
    (h : lookupPairs R.apps name = some e)
    (hc : (entryTruthy e && reuseCheck env e) = false) :
    ensure_ports env o1 o2 R name rb rf = allocResult env o1 o2 R name rb rf := by
  simp [ensure_ports, h, hc]

theorem ensure_reuse_of_check_true (env : Env) (o1 o2 : Nat → Int) (R : Registry)
    (name : String) (rb rf : Option Int) (e : RegEntry)
    (h : lookupPairs R.apps name = some e)
    (hc : (entryTruthy e && reuseCheck env e) = true) :
    ensure_ports env o1 o2 R name rb rf =
      ⟨⟨pyIntCoerce e.backend, pyIntCoerce e.frontend⟩,
       { R with apps := setPairs R.apps name (RegEntry.mk (some (pyIntCoerce e.backend)) (some (pyIntCoerce e.frontend)) none) }⟩ := by
  simp [ensure_ports, h, hc]

theorem allocResult_ports (env : Env) (o1 o2 : Nat → Int) (R : Registry)
    (name : String) (rb rf : Option Int) :
    (allocResult env o1 o2 R name rb rf).ports =
      ⟨allocBackend env o1 R name rb, allocFrontend env o1 o2 R name rb rf⟩ := rfl

theorem allocResult_reg (env : Env) (o1 o2 : Nat → Int) (R : Registry)
    (name : String) (rb rf : Option Int) :
    (allocResult env o1 o2 R name rb rf).reg =
      { R with apps := setPairs R.apps name (RegEntry.mk (some (allocBackend env o1 R name rb)) (some (allocFrontend env o1 o2 R name rb rf)) none) } := rfl

/-- A call whose app has no prior entry takes the fresh-allocation path;
when both its picks succeed, the returned ports avoid every reserved
port, differ from each other, and the entry is appended. -/
theorem ensure_fresh_spec (env : Env) (o1 o2 : Nat → Int) (R : Registry)
    (name : String) (rb rf : Option Int)
    (h : lookupPairs R.apps name = none)
    (hB : pickOk env R (allocForbidden env R name) o1 = true)
    (hF : pickOk env R
      (setAdd (allocForbidden env R name) (allocBackend env o1 R name rb)) o2 = true) :
    allocBackend env o1 R name rb ∉ _reserved_ports env R ∧
    allocFrontend env o1 o2 R name rb rf ∉ _reserved_ports env R ∧
    allocFrontend env o1 o2 R name rb rf ≠ allocBackend env o1 R name rb ∧
    ensure_ports env o1 o2 R name rb rf =
      ⟨⟨allocBackend env o1 R name rb, allocFrontend env o1 o2 R name rb rf⟩,
       ⟨R.min_port, R.max_port, R.apps ++ [(name, RegEntry.mk (some (allocBackend env o1 R name rb)) (some (allocFrontend env o1 o2 R name rb rf)) none)]⟩⟩ := by
  have hforb := allocForbidden_of_none env R name h
  refine ⟨?_, ?_, allocFrontend_ne_backend env o1 o2 R name rb rf hF, ?_⟩
  · have := allocBackend_not_forbidden env o1 R name rb hB
    rwa [hforb] at this
  · have := allocFrontend_not_forbidden env o1 o2 R name rb rf hF
    rw [hforb] at this
    exact fun hm => this (List.mem_cons_of_mem _ hm)
  · rw [ensure_alloc_of_lookup_none env o1 o2 R name rb rf h]
    simp only [allocResult]
    rw [setPairs_of_none R.apps name _ h]

/-- Invariant of a fresh-name call sequence: all returned ports are
pairwise distinct and avoid every port reserved in the starting state. -/
theorem runCalls_spec (env : Env) : ∀ (calls : List Call) (R : Registry),
    callsOk env R calls = true →
    (calls.map Call.name).Nodup →
    (∀ c ∈ calls, lookupPairs R.apps c.name = none) →
    (portsOfPairs (runCalls env R calls).2).Nodup ∧
    (∀ x ∈ portsOfPairs (runCalls env R calls).2, x ∉ _reserved_ports env R) := by
  intro calls
  induction calls with
  | nil =>
    intro R _ _ _
    simp [runCalls, portsOfPairs]
  | cons c rest ih =>
    intro R hok hnd hfresh
    simp only [callsOk, Bool.and_eq_true] at hok
    obtain ⟨⟨hB, hF⟩, hok3⟩ := hok
    have hfr := hfresh c (List.mem_cons_self _ _)
    obtain ⟨hb_nr, hf_nr, hfb, hreg⟩ :=
      ensure_fresh_spec env c.o1 c.o2 R c.name c.rb c.rf hfr hB hF
    rw [List.map_cons, List.nodup_cons] at hnd
    obtain ⟨hname, hndr⟩ := hnd
    have hne : ∀ d ∈ rest, d.name ≠ c.name := by
      intro d hd hdc
      exact hname (hdc ▸ List.mem_map_of_mem Call.name hd)
    have hfresh2 : ∀ d ∈ rest,
        lookupPairs (ensure_ports env c.o1 c.o2 R c.name c.rb c.rf).reg.apps d.name = none := by
      intro d hd
      rw [hreg]
      rw [lookupPairs_append_none _ _ _ (hfresh d (List.mem_cons_of_mem _ hd))]
      exact lookupPairs_singleton_ne _ _ _ (hne d hd)
    obtain ⟨hnd2, hnr2⟩ := ih (ensure_ports env c.o1 c.o2 R c.name c.rb c.rf).reg hok3 hndr hfresh2
    have hres2 : _reserved_ports env (ensure_ports env c.o1 c.o2 R c.name c.rb c.rf).reg =
        allocFrontend env c.o1 c.o2 R c.name c.rb c.rf ::
          allocBackend env c.o1 R c.name c.rb :: _reserved_ports env R := by
      rw [hreg]
      exact reserved_append_entry env R.min_port R.max_port R.apps c.name _ _ none
    have hports : (ensure_ports env c.o1 c.o2 R c.name c.rb c.rf).ports =
        ⟨allocBackend env c.o1 R c.name c.rb, allocFrontend env c.o1 c.o2 R c.name c.rb c.rf⟩ := by
      rw [hreg]
    have hrun : portsOfPairs (runCalls env R (c :: rest)).2 =
        allocBackend env c.o1 R c.name c.rb ::
        allocFrontend env c.o1 c.o2 R c.name c.rb c.rf ::
        portsOfPairs (runCalls env (ensure_ports env c.o1 c.o2 R c.name c.rb c.rf).reg rest).2 := by
      simp only [runCalls, portsOfPairs, hports]
    rw [hrun]
    constructor
    · rw [List.nodup_cons, List.nodup_cons]
      refine ⟨?_, ?_, hnd2⟩
      · intro hmem
        rcases List.mem_cons.mp hmem with heq | hmem2
        · exact hfb heq.symm
        · have := hnr2 _ hmem2
          rw [hres2] at this
          exact this (List.mem_cons_of_mem _ (List.mem_cons_self _ _))
      · intro hmem
        have := hnr2 _ hmem
        rw [hres2] at this
        exact this (List.mem_cons_self _ _)
    · intro x hx
      rcases List.mem_cons.mp hx with hxb | hx2
      · exact hxb ▸ hb_nr
      · rcases List.mem_cons.mp hx2 with hxf | hx3
        · exact hxf ▸ hf_nr
        · have := hnr2 _ hx3
          rw [hres2] at this
          exact fun hm => this (List.mem_cons_of_mem _ (List.mem_cons_of_mem _ hm))

/-! ### Lemmas about filtering the apps map (garbage collection) -/

theorem lookupPairs_filter_notin (l : List (String × RegEntry)) (ds : List String)
    (n : String) (h : n ∉ ds) :
    lookupPairs (l.filter (fun p => decide (p.1 ∈ ds))) n = none := by
  induction l with
  | nil => rfl
  | cons p t ih =>
    by_cases hk : p.1 ∈ ds
    · have hne : p.1 ≠ n := fun hc => h (hc ▸ hk)
      rw [List.filter_cons, if_pos (by simp [hk])]
      simp only [lookupPairs]
      rw [if_neg hne]
      exact ih
    · rw [List.filter_cons, if_neg (by simp [hk])]
      exact ih

theorem lookupPairs_filter_in (l : List (String × RegEntry)) (ds : List String)
    (n : String) (h : n ∈ ds) :
    lookupPairs (l.filter (fun p => decide (p.1 ∈ ds))) n = lookupPairs l n := by
  induction l with
  | nil => rfl
  | cons p t ih =>
    by_cases hn : p.1 = n
    · have hk : p.1 ∈ ds := hn ▸ h
      rw [List.filter_cons, if_pos (by simp [hk])]
      simp only [lookupPairs]
      rw [if_pos hn, if_pos hn]
    · by_cases hk : p.1 ∈ ds
      · rw [List.filter_cons, if_pos (by simp [hk])]
        simp only [lookupPairs]
        rw [if_neg hn, if_neg hn]
        exact ih
      · rw [List.filter_cons, if_neg (by simp [hk])]
        simp only [lookupPairs]
        rw [if_neg hn]
        exact ih

theorem lookupPairs_mem_keys (l : List (String × RegEntry)) (n : String)
    (e : RegEntry) (h : lookupPairs l n = some e) : n ∈ l.map Prod.fst := by
  induction l with
  | nil => simp [lookupPairs] at h
  | cons p t ih =>
    by_cases hn : p.1 = n
    · exact List.mem_cons.mpr (Or.inl hn.symm)
    · rw [lookupPairs, if_neg hn] at h
      exact List.mem_cons.mpr (Or.inr (ih h))

/-! ### Claim theorems: probe, process control, persistence -/

/-- C3: for every port number and bind address, assuming the socket layer
signals bind failures as `OSError` (its documented contract), the probe
`_is_port_available` returns a plain boolean that is true iff the bind
succeeded; every failure yields `false` and no exception escapes (the result
is always `Except.ok`). -/
theorem c3_probe_boolean (env : BindEnv) (port : Int) (host : String)
    (hOS : ∀ e, env.bind host port = Except.error e → e.isOSError = true) :
    ∃ b, _is_port_available env port host = Except.ok b ∧
      (b = true ↔ env.bind host port = Except.ok ()) := by
  cases hb : env.bind host port with
  | ok u =>
    cases u
    exact ⟨true, by simp [_is_port_available, hb], by simp [hb]⟩
  | error e =>
    refine ⟨false, by simp [_is_port_available, hb, hOS e hb], ?_⟩
    constructor
    · intro h
      exact absurd h (by simp)
    · intro h
      exact absurd h (by simp)

/-- C3 witness: a concrete environment where every bind fails with
`EADDRINUSE`; the probe returns `Except.ok false`. -/
theorem c3_probe_boolean_witness :
    (∀ e, bindBusy.bind "0.0.0.0" 8080 = Except.error e → e.isOSError = true) ∧
    ∃ b, _is_port_available bindBusy 8080 "0.0.0.0" = Except.ok b ∧
      (b = true ↔ bindBusy.bind "0.0.0.0" 8080 = Except.ok ()) := by
  have hOS : ∀ e, bindBusy.bind "0.0.0.0" 8080 = Except.error e → e.isOSError = true := by
    intro e h
    injection h with h2
    rw [← h2]
    rfl
  exact ⟨hOS, c3_probe_boolean bindBusy 8080 "0.0.0.0" hOS⟩

/-- C7: `stop_app` returns false, without raising, when no pid is recorded
for the app, and likewise when the recorded pid is not a live process; the
embedding is a total function into `Bool`, so no expected process-control
failure propagates as an exception. -/
theorem c7_stop_semantics (env : Env) (R : Registry) (name : String)
    (h : get_pid R name = none ∨
      ∃ p, get_pid R name = some p ∧ _is_process_running env p = false) :
    (stop_app env R name).stopped = false := by
  rcases h with h0 | ⟨p, hp, hrun⟩
  · simp [stop_app, h0]
  · simp [stop_app, hp, hrun]

/-- C7 witness: an app with no entry at all has no recorded pid, and
`stop_app` returns false on it. -/
theorem c7_stop_semantics_witness :
    (get_pid (freshRegistry 3000 3010) "a" = none ∨
      ∃ p, get_pid (freshRegistry 3000 3010) "a" = some p ∧
        _is_process_running envAllFree p = false) ∧
    (stop_app envAllFree (freshRegistry 3000 3010) "a").stopped = false :=
  ⟨Or.inl rfl, c7_stop_semantics envAllFree (freshRegistry 3000 3010) "a" (Or.inl rfl)⟩

/-- C8: loading the registry from a missing, unreadable, or malformed durable
store (including a parsed store whose top-level shape lacks an apps map)
yields an empty registry: `get_ports` is absent for every name, and the
embedding never propagates an error. -/
theorem c8_load_graceful (env : Env) (minP maxP : Int) (store : RawStore)
    (name : String)
    (h : store = RawStore.missing ∨ store = RawStore.unreadable ∨
         store = RawStore.badJson ∨ store = RawStore.noAppsMap) :
    get_ports (_load env store minP maxP).reg name = none := by
  rcases h with rfl | rfl | rfl | rfl
  · rfl
  · rfl
  · rfl
  · cases hd : env.dirs <;> simp [_load, _garbage_collect, hd, get_ports, lookupPairs]

/-- C8 witness: loading an unparsable store yields a registry in which a
lookup is absent. -/
theorem c8_load_graceful_witness :
    (RawStore.badJson = RawStore.missing ∨ RawStore.badJson = RawStore.unreadable ∨
     RawStore.badJson = RawStore.badJson ∨ RawStore.badJson = RawStore.noAppsMap) ∧
    get_ports (_load envAllFree RawStore.badJson 3000 5000).reg "x" = none :=
  ⟨Or.inr (Or.inr (Or.inl rfl)),
   c8_load_graceful envAllFree 3000 5000 RawStore.badJson "x"
     (Or.inr (Or.inr (Or.inl rfl)))⟩

/-- C9: after a load/garbage-collection cycle over a store containing an
entry whose directory exists and one whose directory is gone, the latter is
absent, the former is unchanged, and a termination signal is attempted for
the removed entry's live recorded pid. -/
theorem c9_garbage_collection (env : Env) (minP maxP : Int)
    (m : List (String × RegEntry)) (ds : List String) (n1 n2 : String)
    (hdirs : env.dirs = some ds) (h1 : n1 ∈ ds) (h2 : n2 ∉ ds) :
    get_ports (_load env (RawStore.appsMap m) minP maxP).reg n2 = none ∧
    get_ports (_load env (RawStore.appsMap m) minP maxP).reg n1 =
      get_ports (⟨minP, maxP, m⟩ : Registry) n1 ∧
    (∀ e p, lookupPairs m n2 = some e → e.pid = some p →
      _is_process_running env p = true →
      p ∈ (_load env (RawStore.appsMap m) minP maxP).killed) := by
  have hload : _load env (RawStore.appsMap m) minP maxP =
      _garbage_collect env ⟨minP, maxP, m⟩ := rfl
  rw [hload]
  unfold _garbage_collect
  rw [hdirs]
  refine ⟨?_, ?_, ?_⟩
  · simp only [get_ports]
    rw [lookupPairs_filter_notin m ds n2 h2]
  · simp only [get_ports]
    rw [lookupPairs_filter_in m ds n1 h1]
  · intro e p he hpid hrunning
    refine List.mem_filterMap.mpr ⟨n2, ?_, ?_⟩
    · refine List.mem_filter.mpr ⟨lookupPairs_mem_keys m n2 e he, by simp [h2]⟩
    · simp [gcKillCheck, he, hpid, hrunning]

/-- C9 witness: the concrete two-app scenario with app2's directory gone and
its recorded pid 555 alive. -/
theorem c9_garbage_collection_witness :
    (envGC.dirs = some ["app1"] ∧ "app1" ∈ ["app1"] ∧ ("app2" : String) ∉ ["app1"]) ∧
    (get_ports (_load envGC (RawStore.appsMap regGCm) 3000 5000).reg "app2" = none ∧
     get_ports (_load envGC (RawStore.appsMap regGCm) 3000 5000).reg "app1" =
       get_ports (⟨3000, 5000, regGCm⟩ : Registry) "app1" ∧
     (∀ e p, lookupPairs regGCm "app2" = some e → e.pid = some p →
       _is_process_running envGC p = true →
       p ∈ (_load envGC (RawStore.appsMap regGCm) 3000 5000).killed)) :=
  ⟨⟨rfl, by decide, by decide⟩,
   c9_garbage_collection envGC 3000 5000 regGCm ["app1"] "app1" "app2" rfl
     (by decide) (by decide)⟩

/-- C10: every `ensure_ports` call, on both the reuse path and the
fresh-allocation path, rewrites the entry as a record holding only the two
ports, so `get_pid` is absent for that app afterwards. -/
theorem c10_pid_dropped (env : Env) (o1 o2 : Nat → Int) (R : Registry)
    (name : String) (rb rf : Option Int) :
    get_pid (ensure_ports env o1 o2 R name rb rf).reg name = none := by
  cases hl : lookupPairs R.apps name with
  | none =>
    rw [ensure_alloc_of_lookup_none env o1 o2 R name rb rf hl, allocResult_reg]
    simp [get_pid, lookupPairs_setPairs_self]
  | some e =>
    by_cases hc : (entryTruthy e && reuseCheck env e) = true
    · rw [ensure_reuse_of_check_true env o1 o2 R name rb rf e hl hc]
      simp [get_pid, lookupPairs_setPairs_self]
    · rw [ensure_alloc_of_check_false env o1 o2 R name rb rf e hl (by simpa using hc),
        allocResult_reg]
      simp [get_pid, lookupPairs_setPairs_self]

/-! ### Claim theorems: the allocation invariants -/

theorem allocFrontend_not_generator (env : Env) (o1 o2 : Nat → Int) (R : Registry)
    (name : String) (rb rf : Option Int) (hGen : entryGenFree env R name)
    (hF : pickOk env R
      (setAdd (allocForbidden env R name) (allocBackend env o1 R name rb)) o2 = true) :
    allocFrontend env o1 o2 R name rb rf ≠ env.generatorBackendPort ∧
    allocFrontend env o1 o2 R name rb rf ≠ env.generatorFrontendPort := by
  have hnf := allocFrontend_not_forbidden env o1 o2 R name rb rf hF
  have hg := gen_mem_allocForbidden env R name hGen
  constructor
  · intro h
    exact hnf (h ▸ List.mem_cons_of_mem _ hg.1)
  · intro h
    exact hnf (h ▸ List.mem_cons_of_mem _ hg.2)

theorem alloc_pair_invariant (env : Env) (o1 o2 : Nat → Int) (R : Registry)
    (name : String) (rb rf : Option Int)
    (hGen : entryGenFree env R name) (hLe : R.min_port ≤ R.max_port)
    (hB : pickOk env R (allocForbidden env R name) o1 = true)
    (hF : pickOk env R
      (setAdd (allocForbidden env R name) (allocBackend env o1 R name rb)) o2 = true) :
    pairSeparated env ⟨allocBackend env o1 R name rb, allocFrontend env o1 o2 R name rb rf⟩ ∧
    pairInRange R ⟨allocBackend env o1 R name rb, allocFrontend env o1 o2 R name rb rf⟩ := by
  obtain ⟨hbg1, hbg2⟩ := allocBackend_not_generator env o1 R name rb hGen hB
  obtain ⟨hfg1, hfg2⟩ := allocFrontend_not_generator env o1 o2 R name rb rf hGen hF
  have hfb := allocFrontend_ne_backend env o1 o2 R name rb rf hF
  obtain ⟨hbr1, hbr2⟩ := allocBackend_range env o1 R name rb hLe hB
  obtain ⟨hfr1, hfr2⟩ := allocFrontend_range env o1 o2 R name rb rf hLe hF
  exact ⟨⟨fun h => hfb h.symm, hbg1, hbg2, hfg1, hfg2⟩, ⟨hbr1, hbr2, hfr1, hfr2⟩⟩

/-- C2 (amended): every pair returned by `ensure_ports` has distinct backend
and frontend and avoids both generator-reserved ports, provided the app's
prior entry records no generator port and neither internal pick reaches the
last-resort fallback; pairs produced by the fresh-allocation path additionally
lie within the configured range, while the reuse path returns the recorded
pair without re-checking the range. -/
theorem c2_pair_invariant (env : Env) (o1 o2 : Nat → Int) (R : Registry)
    (name : String) (rb rf : Option Int)
    (hGen : entryGenFree env R name) (hLe : R.min_port ≤ R.max_port)
    (hB : pickOk env R (allocForbidden env R name) o1 = true)
    (hF : pickOk env R
      (setAdd (allocForbidden env R name) (allocBackend env o1 R name rb)) o2 = true) :
    pairSeparated env (ensure_ports env o1 o2 R name rb rf).ports ∧
    (reuseTaken env R name = false →
      pairInRange R (ensure_ports env o1 o2 R name rb rf).ports) := by
  cases hl : lookupPairs R.apps name with
  | none =>
    rw [ensure_alloc_of_lookup_none env o1 o2 R name rb rf hl, allocResult_ports]
    have h := alloc_pair_invariant env o1 o2 R name rb rf hGen hLe hB hF
    exact ⟨h.1, fun _ => h.2⟩
  | some e =>
    by_cases hc : (entryTruthy e && reuseCheck env e) = true
    · rw [ensure_reuse_of_check_true env o1 o2 R name rb rf e hl hc]
      have hc0 := hc
      simp only [Bool.and_eq_true] at hc
      obtain ⟨ht, hcr⟩ := hc
      simp only [reuseCheck, decide_eq_true_eq] at hcr
      refine ⟨⟨hcr.2.2.1, hcr.2.2.2.1, hcr.2.2.2.2.1, hcr.2.2.2.2.2.1,
        hcr.2.2.2.2.2.2⟩, ?_⟩
      intro hr
      have hrt : reuseTaken env R name = true := by simp [reuseTaken, hl, hc0]
      rw [hrt] at hr
      exact absurd hr (by simp)
    · rw [ensure_alloc_of_check_false env o1 o2 R name rb rf e hl (by simpa using hc),
        allocResult_ports]
      have h := alloc_pair_invariant env o1 o2 R name rb rf hGen hLe hB hF
      exact ⟨h.1, fun _ => h.2⟩

/-- C2 witness: a fresh app on an all-free environment; both picks succeed
and the returned pair satisfies the full invariant. -/
theorem c2_pair_invariant_witness :
    (entryGenFree envAllFree (freshRegistry 3000 3010) "a" ∧
     pickOk envAllFree (freshRegistry 3000 3010)
       (allocForbidden envAllFree (freshRegistry 3000 3010) "a") (fun _ => 3) = true) ∧
    pairSeparated envAllFree
      (ensure_ports envAllFree (fun _ => 3) (fun _ => 4)
        (freshRegistry 3000 3010) "a" none none).ports ∧
    (reuseTaken envAllFree (freshRegistry 3000 3010) "a" = false →
      pairInRange (freshRegistry 3000 3010)
        (ensure_ports envAllFree (fun _ => 3) (fun _ => 4)
          (freshRegistry 3000 3010) "a" none none).ports) := by
  have hGen : entryGenFree envAllFree (freshRegistry 3000 3010) "a" :=
    fun e h => Option.noConfusion h
  have h := c2_pair_invariant envAllFree (fun _ => 3) (fun _ => 4)
    (freshRegistry 3000 3010) "a" none none hGen (by decide) (by decide) (by decide)
  exact ⟨⟨hGen, by decide⟩, h.1, h.2⟩

/-- C2 counterexample: the reuse path returns a recorded out-of-range pair
as-is, so the range part of the claimed invariant fails on it. -/
theorem c2_range_counterexample :
    (ensure_ports envDefaults oZero oZero regOutOfRange "app1" none none).ports =
      ⟨9999, 9998⟩ ∧
    regOutOfRange.max_port = 5000 ∧
    ¬ pairInRange regOutOfRange
      (ensure_ports envDefaults oZero oZero regOutOfRange "app1" none none).ports := by
  refine ⟨by decide, by decide, ?_⟩
  intro h
  exact absurd h.2.1 (by decide)

/-- An app whose recorded entry is exactly a separated pair takes the reuse
path on the next call and gets that pair back. -/
theorem ensure_of_good_entry (env : Env) (o3 o4 : Nat → Int) (R2 : Registry)
    (name : String) (b f : Int)
    (hl2 : lookupPairs R2.apps name = some (RegEntry.mk (some b) (some f) none))
    (hb0 : b ≠ 0) (hf0 : f ≠ 0) (hbf : b ≠ f)
    (hbg1 : b ≠ env.generatorBackendPort) (hbg2 : b ≠ env.generatorFrontendPort)
    (hfg1 : f ≠ env.generatorBackendPort) (hfg2 : f ≠ env.generatorFrontendPort) :
    (ensure_ports env o3 o4 R2 name none none).ports = ⟨b, f⟩ := by
  have hc : (entryTruthy (RegEntry.mk (some b) (some f) none) &&
      reuseCheck env (RegEntry.mk (some b) (some f) none)) = true := by
    simp [entryTruthy, reuseCheck, pyIntCoerce, hb0, hf0, hbf, hbg1, hbg2, hfg1, hfg2]
  rw [ensure_reuse_of_check_true env o3 o4 R2 name none none _ hl2 hc]
  rfl

/-- A first call that went through the fresh-allocation path with succeeding
picks writes a separated in-range pair, so a second call reuses it. -/
theorem ensure_alloc_second_call (env : Env) (o1 o2 o3 o4 : Nat → Int)
    (R : Registry) (name : String)
    (hGen : entryGenFree env R name)
    (hLo : 0 < R.min_port) (hLe : R.min_port ≤ R.max_port)
    (hB : pickOk env R (allocForbidden env R name) o1 = true)
    (hF : pickOk env R
      (setAdd (allocForbidden env R name) (allocBackend env o1 R name none)) o2 = true)
    (halloc : ensure_ports env o1 o2 R name none none =
      allocResult env o1 o2 R name none none) :
    (ensure_ports env o3 o4 (ensure_ports env o1 o2 R name none none).reg
        name none none).ports = (ensure_ports env o1 o2 R name none none).ports ∧
    get_ports (ensure_ports env o1 o2 R name none none).reg name =
      some (ensure_ports env o1 o2 R name none none).ports := by
  obtain ⟨hsep, hrange⟩ :=
    alloc_pair_invariant env o1 o2 R name none none hGen hLe hB hF
  have hblo : R.min_port ≤ allocBackend env o1 R name none := hrange.1
  have hflo : R.min_port ≤ allocFrontend env o1 o2 R name none none := hrange.2.2.1
  rw [halloc, allocResult_ports, allocResult_reg]
  constructor
  · exact ensure_of_good_entry env o3 o4 _ name _ _
      (lookupPairs_setPairs_self R.apps name _)
      (by omega) (by omega)
      hsep.1 hsep.2.1 hsep.2.2.1 hsep.2.2.2.1 hsep.2.2.2.2
  · simp [get_ports, lookupPairs_setPairs_self]

/-- C4 (amended): calling `ensure_ports(name, None, None)` twice in a row
returns the identical PortPair both times and persists it, provided the app's
prior recorded entry (if any) holds no generator-reserved port and neither
pick of the first call reaches the last-resort fallback; in particular a
recorded internally-valid pair is reused unconditionally. -/
theorem c4_idempotent (env : Env) (o1 o2 o3 o4 : Nat → Int) (R : Registry)
    (name : String)
    (hGen : entryGenFree env R name)
    (hLo : 0 < R.min_port) (hLe : R.min_port ≤ R.max_port)
    (hB : pickOk env R (allocForbidden env R name) o1 = true)
    (hF : pickOk env R
      (setAdd (allocForbidden env R name) (allocBackend env o1 R name none)) o2 = true) :
    (ensure_ports env o3 o4 (ensure_ports env o1 o2 R name none none).reg
        name none none).ports = (ensure_ports env o1 o2 R name none none).ports ∧
    get_ports (ensure_ports env o1 o2 R name none none).reg name =
      some (ensure_ports env o1 o2 R name none none).ports := by
  cases hl : lookupPairs R.apps name with
  | none =>
    exact ensure_alloc_second_call env o1 o2 o3 o4 R name hGen hLo hLe hB hF
      (ensure_alloc_of_lookup_none env o1 o2 R name none none hl)
  | some e =>
    by_cases hc : (entryTruthy e && reuseCheck env e) = true
    · have hre := ensure_reuse_of_check_true env o1 o2 R name none none e hl hc
      simp only [Bool.and_eq_true] at hc
      obtain ⟨ht, hcr⟩ := hc
      simp only [reuseCheck, decide_eq_true_eq] at hcr
      rw [hre]
      constructor
      · exact ensure_of_good_entry env o3 o4 _ name _ _
          (lookupPairs_setPairs_self R.apps name _)
          hcr.1 hcr.2.1 hcr.2.2.1 hcr.2.2.2.1 hcr.2.2.2.2.1
          hcr.2.2.2.2.2.1 hcr.2.2.2.2.2.2
      · simp [get_ports, lookupPairs_setPairs_self]
    · exact ensure_alloc_second_call env o1 o2 o3 o4 R name hGen hLo hLe hB hF
        (ensure_alloc_of_check_false env o1 o2 R name none none e hl (by simpa using hc))

/-- C4 witness: two automatic calls on a fresh registry return the identical
pair, which is also the persisted one. -/
theorem c4_idempotent_witness :
    (entryGenFree envAllFree (freshRegistry 3000 3010) "a" ∧
     pickOk envAllFree (freshRegistry 3000 3010)
       (allocForbidden envAllFree (freshRegistry 3000 3010) "a") (fun _ => 3) = true) ∧
    (ensure_ports envAllFree (fun _ => 5) (fun _ => 6)
        (ensure_ports envAllFree (fun _ => 3) (fun _ => 4)
          (freshRegistry 3000 3010) "a" none none).reg "a" none none).ports =
      (ensure_ports envAllFree (fun _ => 3) (fun _ => 4)
        (freshRegistry 3000 3010) "a" none none).ports ∧
    get_ports (ensure_ports envAllFree (fun _ => 3) (fun _ => 4)
        (freshRegistry 3000 3010) "a" none none).reg "a" =
      some (ensure_ports envAllFree (fun _ => 3) (fun _ => 4)
        (freshRegistry 3000 3010) "a" none none).ports := by
  have hGen : entryGenFree envAllFree (freshRegistry 3000 3010) "a" :=
    fun e h => Option.noConfusion h
  have h := c4_idempotent envAllFree (fun _ => 3) (fun _ => 4) (fun _ => 5) (fun _ => 6)
    (freshRegistry 3000 3010) "a" hGen (by decide) (by decide) (by decide) (by decide)
  exact ⟨⟨hGen, by decide⟩, h.1, h.2⟩

set_option maxRecDepth 20000 in
/-- C4 counterexample: with ports exhausted down to two coinciding with the
generator range, the first call's fallback records a generator port, the
reuse validation rejects it, and a reallocation with a different random
stream returns a different pair on the second call. -/
theorem c4_counterexample :
    (ensure_ports envAdjacent (fun _ => 6) (fun _ => 2)
        (ensure_ports envAdjacent (fun _ => 2) oZero
          (freshRegistry 3000 3010) "app1" none none).reg "app1" none none).ports ≠
      (ensure_ports envAdjacent (fun _ => 2) oZero
        (freshRegistry 3000 3010) "app1" none none).ports := by
  decide

/-- C5 (amended): with no prior entry, requesting the same port X for both
fields never yields X for both, and the returned pair has distinct backend
and frontend, provided the picks involved do not reach the last-resort
fallback. -/
theorem c5_self_override (env : Env) (o1 o2 : Nat → Int) (R : Registry)
    (name : String) (X : Int)
    (hl : lookupPairs R.apps name = none)
    (hF : pickOk env R
      (setAdd (allocForbidden env R name) (allocBackend env o1 R name (some X))) o2 = true) :
    ¬ ((ensure_ports env o1 o2 R name (some X) (some X)).ports.backend = X ∧
       (ensure_ports env o1 o2 R name (some X) (some X)).ports.frontend = X) ∧
    (ensure_ports env o1 o2 R name (some X) (some X)).ports.backend ≠
      (ensure_ports env o1 o2 R name (some X) (some X)).ports.frontend := by
  rw [ensure_alloc_of_lookup_none env o1 o2 R name (some X) (some X) hl, allocResult_ports]
  have hne := allocFrontend_ne_backend env o1 o2 R name (some X) (some X) hF
  constructor
  · rintro ⟨hbX, hfX⟩
    exact hne (hfX.trans hbX.symm)
  · exact fun h => hne h.symm

/-- C5 witness: requesting (3003, 3003) on a fresh registry keeps the backend
and reallocates the frontend to a different port. -/
theorem c5_self_override_witness :
    (lookupPairs (freshRegistry 3000 3010).apps "a" = none ∧
     pickOk envAllFree (freshRegistry 3000 3010)
       (setAdd (allocForbidden envAllFree (freshRegistry 3000 3010) "a")
         (allocBackend envAllFree (fun _ => 3) (freshRegistry 3000 3010) "a" (some 3003)))
       (fun _ => 4) = true) ∧
    ¬ ((ensure_ports envAllFree (fun _ => 3) (fun _ => 4)
          (freshRegistry 3000 3010) "a" (some 3003) (some 3003)).ports.backend = 3003 ∧
       (ensure_ports envAllFree (fun _ => 3) (fun _ => 4)
          (freshRegistry 3000 3010) "a" (some 3003) (some 3003)).ports.frontend = 3003) ∧
    (ensure_ports envAllFree (fun _ => 3) (fun _ => 4)
        (freshRegistry 3000 3010) "a" (some 3003) (some 3003)).ports.backend ≠
      (ensure_ports envAllFree (fun _ => 3) (fun _ => 4)
        (freshRegistry 3000 3010) "a" (some 3003) (some 3003)).ports.frontend := by
  have h := c5_self_override envAllFree (fun _ => 3) (fun _ => 4)
    (freshRegistry 3000 3010) "a" 3003 rfl (by decide)
  exact ⟨⟨rfl, by decide⟩, h.1, h.2⟩

set_option maxRecDepth 20000 in
/-- C5 counterexample: when no port is available, the requested port 3005 is
accepted for the backend and the frontend pick degrades to the last-resort
value, which is again 3005 — the call returns X for both fields. -/
theorem c5_counterexample :
    (ensure_ports envNoneFree oZero oZero (freshRegistry 3000 3010)
      "app1" (some 3005) (some 3005)).ports = ⟨3005, 3005⟩ := by
  decide

/-- C6 (amended): a requested backend that collides with a currently
reserved port fails validation and is replaced by a freshly allocated port,
which differs from the requested one provided the replacement pick does not
reach the last-resort fallback. -/
theorem c6_collision_rejection (env : Env) (o1 o2 : Nat → Int) (R : Registry)
    (name : String) (p : Int) (rf : Option Int)
    (hl : lookupPairs R.apps name = none)
    (hp : p ∈ _reserved_ports env R)
    (hB : pickOk env R (allocForbidden env R name) o1 = true) :
    (ensure_ports env o1 o2 R name (some p) rf).ports.backend =
      _pick_available_port env R (allocForbidden env R name) o1 ∧
    (ensure_ports env o1 o2 R name (some p) rf).ports.backend ≠ p := by
  rw [ensure_alloc_of_lookup_none env o1 o2 R name (some p) rf hl, allocResult_ports]
  have hpf : p ∈ allocForbidden env R name := by
    rw [allocForbidden_of_none env R name hl]
    exact hp
  have hvf : _valid env R (allocForbidden env R name) (some p) = false := by
    cases hv : _valid env R (allocForbidden env R name) (some p)
    · rfl
    · exact absurd hpf (valid_spec env R _ p hv).2.2.2.2
  have hb : allocBackend env o1 R name (some p) =
      _pick_available_port env R (allocForbidden env R name) o1 := by
    simp only [allocBackend]
    rw [if_neg (by simp [hvf])]
  refine ⟨hb, ?_⟩
  have hbp := (pick_spec env R (allocForbidden env R name) o1 hB).1
  intro h
  have h2 : allocBackend env o1 R name (some p) = p := h
  rw [hb] at h2
  exact hbp (h2 ▸ hpf)

/-- C6 witness: the spec scenario app1 -> (3001, 3002); requesting 3001 for
app2's backend is rejected and a fresh port is returned instead. -/
theorem c6_collision_rejection_witness :
    (lookupPairs regClaim6.apps "app2" = none ∧
     (3001 : Int) ∈ _reserved_ports envDefaults regClaim6) ∧
    (ensure_ports envDefaults (fun _ => 500) oZero regClaim6
        "app2" (some 3001) (some 3005)).ports.backend =
      _pick_available_port envDefaults regClaim6
        (allocForbidden envDefaults regClaim6 "app2") (fun _ => 500) ∧
    (ensure_ports envDefaults (fun _ => 500) oZero regClaim6
        "app2" (some 3001) (some 3005)).ports.backend ≠ 3001 := by
  have h := c6_collision_rejection envDefaults (fun _ => 500) oZero regClaim6
    "app2" 3001 (some 3005) (by decide) (by decide) (by decide)
  exact ⟨⟨by decide, by decide⟩, h.1, h.2⟩

/-- C6 counterexample: when the generator frontend port is 3000 the
last-resort fallback value is 3001; with every probe failing, the replacement
allocation for app2's rejected backend degrades to exactly 3001 — the port
already recorded for app1. -/
theorem c6_counterexample :
    lookupPairs regApp1.apps "app1" =
      some (RegEntry.mk (some 3001) (some 3002) none) ∧
    (ensure_ports envGF3000 oZero oZero regApp1
      "app2" (some 3001) (some 3005)).ports.backend = 3001 := by
  exact ⟨by decide, by decide⟩

/-- C1 (amended): for any sequence of `ensure_ports`/`reserve_pair` calls on
a fresh registry with pairwise-distinct application names, provided the two
generator-reserved ports are distinct (as the startup configuration
guarantees) and no pick during the sequence reaches the last-resort fallback,
the union of all returned backend and frontend ports across all entries,
together with the two generator-reserved ports, contains no duplicate. -/
theorem c1_sequence_uniqueness (env : Env) (lo hi : Int) (calls : List Call)
    (hGF : env.generatorBackendPort ≠ env.generatorFrontendPort)
    (hnd : (calls.map Call.name).Nodup)
    (hok : callsOk env (freshRegistry lo hi) calls = true) :
    (portsOfPairs (runCalls env (freshRegistry lo hi) calls).2 ++
      [env.generatorBackendPort, env.generatorFrontendPort]).Nodup := by
  obtain ⟨h1, h2⟩ := runCalls_spec env calls (freshRegistry lo hi) hok hnd (fun c _ => rfl)
  refine List.Nodup.append h1 ?_ ?_
  · simp [hGF]
  · intro x hx hx2
    have h3 := h2 x hx
    rw [reserved_fresh] at h3
    exact h3 hx2

set_option maxRecDepth 20000 in
/-- C1 witness: two calls with distinct names on a fresh registry, one fully
automatic and one with a requested backend; all four returned ports plus the
two generator ports are distinct. -/
theorem c1_sequence_uniqueness_witness :
    (envAllFree.generatorBackendPort ≠ envAllFree.generatorFrontendPort ∧
     (callsW.map Call.name).Nodup ∧
     callsOk envAllFree (freshRegistry 3000 3010) callsW = true) ∧
    (portsOfPairs (runCalls envAllFree (freshRegistry 3000 3010) callsW).2 ++
      [envAllFree.generatorBackendPort, envAllFree.generatorFrontendPort]).Nodup :=
  ⟨⟨by decide, by decide, by decide⟩,
   c1_sequence_uniqueness envAllFree 3000 3010 callsW (by decide) (by decide) (by decide)⟩

set_option maxRecDepth 20000 in
/-- C1 counterexample: on a fresh registry with no port available, a single
automatic call degrades twice to the last-resort fallback and returns the
same port for backend and frontend, so the union of returned ports and
generator ports already holds a duplicate. -/
theorem c1_counterexample :
    ¬ (portsOfPairs (runCalls envNoneFree (freshRegistry 3000 3010)
        [⟨"app1", none, none, oZero, oZero⟩]).2 ++
      [envNoneFree.generatorBackendPort, envNoneFree.generatorFrontendPort]).Nodup := by
  decide

end PortRegistry
